import Mathlib

/-!
Verification of the discord-standby-bot v2 queue core.

The development shallowly embeds the queue engine (`src/v2/src/queue.rs`)
and the persistence layer (`src/v2/src/redis_store.rs`).  The Redis store
slice addressed by one (guild, channel) pair is modelled as a record with
the three stored pieces of data (message-id binding, ordered user list,
notification-message binding); the key-derivation functions of the store
are modelled separately as functions on strings.  Store operations are
modelled on the happy path (Redis reachable); the one claim about the
error path of a read is settled on a result-level function that takes the
outcome of the read as an argument, exactly as the Rust `matches!` does.
-/

namespace StandbyBot

/-- Rust `QUEUE_ALMOST_FULL` from queue.rs: threshold for the "one more needed"
notification. -/
def QUEUE_ALMOST_FULL : Nat := 4

/-- Rust `QUEUE_FULL` from queue.rs: maximum size of the main queue before users
go to the waitlist. -/
def QUEUE_FULL : Nat := 5

/-- Rust `QueueNotification` from queue.rs. -/
inductive QueueNotification where
  | OneMore : QueueNotification
  | Ready : List String → QueueNotification
deriving DecidableEq, Repr

/-- Rust `QueueOperationResult` from queue.rs.  `Success` carries the main-queue
users, the waitlist, the optional notification and the optional promoted
user, in that order. -/
inductive QueueOperationResult where
  | Success : List String → List String → Option QueueNotification →
      Option String → QueueOperationResult
  | AlreadyInQueue : QueueOperationResult
  | NotInQueue : QueueOperationResult
  | Error : String → QueueOperationResult
deriving DecidableEq, Repr

/-- The slice of the Redis store addressed by one (guild, channel) pair:
the message-id binding, the ordered user list, and the notification
message-id binding (schema comment of redis_store.rs). -/
structure RedisStore where
  message_id : Option Int
  users : List String
  notification_id : Option Int
deriving DecidableEq, Repr

/-- Rust `RedisStore::message_key`: `format!("{guild_id}.{channel_id}")`. -/
def message_key (guild_id channel_id : String) : String :=
  guild_id ++ "." ++ channel_id

/-- Rust `RedisStore::queue_key`: `format!("{guild_id}.{channel_id}.queue")`. -/
def queue_key (guild_id channel_id : String) : String :=
  guild_id ++ "." ++ channel_id ++ ".queue"

/-- Rust `RedisStore::notification_key`:
`format!("{guild_id}.{channel_id}.notification")`. -/
def notification_key (guild_id channel_id : String) : String :=
  guild_id ++ "." ++ channel_id ++ ".notification"

/-- Rust `RedisStore::contains_user`: reads the user list and checks membership
with `users.iter().any(|u| u == user_id)`. -/
def RedisStore.contains_user (s : RedisStore) (user_id : String) : Bool :=
  s.users.any (fun u => u == user_id)

/-- Rust `RedisStore::add_user`: `RPUSH` appends the user at the end of the
list. -/
def RedisStore.add_user (s : RedisStore) (user_id : String) : RedisStore :=
  { s with users := s.users ++ [user_id] }

/-- Rust `RedisStore::remove_user`: `LREM key 0 user_id` removes all occurrences
of the value from the list. -/
def RedisStore.remove_user (s : RedisStore) (user_id : String) : RedisStore :=
  { s with users := s.users.filter (fun u => u != user_id) }

/-- Rust `RedisStore::get_users`: `LRANGE key 0 -1`, the full list in order. -/
def RedisStore.get_users (s : RedisStore) : List String :=
  s.users

/-- Rust `RedisStore::set_message_id`: `SET` on the message key. -/
def RedisStore.set_message_id (s : RedisStore) (message_id : Int) : RedisStore :=
  { s with message_id := some message_id }

/-- Rust `RedisStore::get_message_id`: `GET` on the message key; `None` when the
key is absent. -/
def RedisStore.get_message_id (s : RedisStore) : Option Int :=
  s.message_id

/-- Rust `RedisStore::queue_exists`: `EXISTS` on the message key. -/
def RedisStore.queue_exists (s : RedisStore) : Bool :=
  s.message_id.isSome

/-- Rust `RedisStore::delete_queue`: one `DEL` of the message key, the queue key
and the notification key; on the modelled slice all three records become
absent.  `DEL` of absent keys succeeds, so this is total. -/
def RedisStore.delete_queue (_s : RedisStore) : RedisStore :=
  { message_id := none, users := [], notification_id := none }

/-- Rust `QueueManager` from queue.rs: the store plus the in-memory last-action
annotation (not persisted to Redis). -/
structure QueueManager where
  store : RedisStore
  last_action : Option String
deriving DecidableEq, Repr

/-- Rust `QueueManager::split_queue`: splits all users into the main queue
(first `QUEUE_FULL`) and the waitlist (the rest), copying the list
unchanged when it does not exceed `QUEUE_FULL`. -/
def split_queue (all_users : List String) : List String × List String :=
  if all_users.length > QUEUE_FULL then
    (all_users.take QUEUE_FULL, all_users.drop QUEUE_FULL)
  else
    (all_users, [])

/-- Rust `QueueManager::join_queue` on the happy path of the store: reject when
the user is already present, otherwise append, re-read, split, and decide
the notification by matching the main-queue length against
`QUEUE_ALMOST_FULL` and `QUEUE_FULL`. -/
def join_queue (m : QueueManager) (user_id : String) :
    QueueOperationResult × QueueManager :=
  if m.store.contains_user user_id then
    (QueueOperationResult.AlreadyInQueue, m)
  else
    let store := m.store.add_user user_id
    let all_users := store.get_users
    let p := split_queue all_users
    let notif : Option QueueNotification :=
      if p.1.length = QUEUE_ALMOST_FULL then some QueueNotification.OneMore
      else if p.1.length = QUEUE_FULL then some (QueueNotification.Ready p.1)
      else none
    (QueueOperationResult.Success p.1 p.2 notif none,
     { store := store, last_action := some ("<@" ++ user_id ++ "> joined!") })

/-- Rust `QueueManager::leave_queue` on the happy path of the store: reject when
the user is absent, otherwise record the prior position, remove all
occurrences, re-read, split, detect a promotion (prior position in the
active set, active set full after removal, and more than `QUEUE_FULL`
members before removal), and emit `OneMore` exactly when the post-removal
main queue has `QUEUE_ALMOST_FULL` members. -/
def leave_queue (m : QueueManager) (user_id : String) :
    QueueOperationResult × QueueManager :=
  if m.store.contains_user user_id then
    let users_before := m.store.get_users
    let user_position := users_before.findIdx? (fun u => u == user_id)
    let store := m.store.remove_user user_id
    let all_users := store.get_users
    let p := split_queue all_users
    let promoted_user : Option String :=
      user_position.bind (fun pos =>
        if pos < QUEUE_FULL ∧ p.1.length = QUEUE_FULL ∧
            users_before.length > QUEUE_FULL then
          p.1[QUEUE_FULL - 1]?
        else
          none)
    let notif : Option QueueNotification :=
      if p.1.length = QUEUE_ALMOST_FULL then some QueueNotification.OneMore
      else none
    (QueueOperationResult.Success p.1 p.2 notif promoted_user,
     { store := store, last_action := some ("<@" ++ user_id ++ "> left!") })
  else
    (QueueOperationResult.NotInQueue, m)

/-- Rust `QueueManager::close_queue`: delegates to `RedisStore::delete_queue`;
on the happy path the result is always `Ok(())`. -/
def close_queue (m : QueueManager) : Except String Unit × QueueManager :=
  (Except.ok (), { m with store := m.store.delete_queue })

/-- Rust `QueueManager::create_queue`: delegates to
`RedisStore::set_message_id`; on the happy path the result is always
`Ok(())`. -/
def create_queue (m : QueueManager) (message_id : Int) :
    Except String Unit × QueueManager :=
  (Except.ok (), { m with store := m.store.set_message_id message_id })

/-- Rust `as u64` applied to an `i64` value: the twos-complement bit
pattern read as unsigned, i.e. the value modulo 2^64. -/
def i64_as_u64 (x : Int) : Nat :=
  (x % ((2 : Int) ^ 64)).toNat

/-- The decision inside `QueueManager::is_active_queue`, as a function of
the outcome of `get_message_id`: the Rust `matches!` is true only on
`Ok(Some(stored_id))` with `stored_id as u64 == message_id`, and false on
`Ok(None)` and on every `Err`. -/
def is_active_queue_of_read (read : Except String (Option Int))
    (message_id : Nat) : Bool :=
  match read with
  | Except.ok (some stored_id) => i64_as_u64 stored_id == message_id
  | _ => false

/-- Rust `QueueManager::is_active_queue` on the happy path of the store. -/
def is_active_queue (m : QueueManager) (message_id : Nat) : Bool :=
  is_active_queue_of_read (Except.ok m.store.get_message_id) message_id

/-- A queue manager over an absent queue: no records in the store, no
last-action annotation. -/
def empty_manager : QueueManager :=
  { store := { message_id := none, users := [], notification_id := none },
    last_action := none }

/-- Runs a sequence of `join_queue` calls, threading the manager state. -/
def run_joins (m : QueueManager) : List String → QueueManager
  | [] => m
  | u :: us => run_joins (join_queue m u).2 us

/-- A string with no occurrence of the `.` key separator. -/
def dot_free (s : String) : Bool :=
  !(s.data.contains '.')

/- ### Helper lemmas -/

theorem contains_user_iff (s : RedisStore) (u : String) :
    s.contains_user u = true ↔ u ∈ s.users := by
  simp [RedisStore.contains_user, List.any_eq_true, beq_iff_eq]

theorem split_queue_eq (l : List String) :
    split_queue l = (l.take QUEUE_FULL, l.drop QUEUE_FULL) := by
  unfold split_queue
  by_cases h : l.length > QUEUE_FULL
  · simp [h]
  · simp only [h, if_false]
    push_neg at h
    rw [List.take_of_length_le h, List.drop_eq_nil_of_le h]

/- ### C4: partition invariant -/

/-- C4: for every membership list, the derived split satisfies
`len(active) ≤ QUEUE_FULL`, a non-empty waitlist forces
`len(active) = QUEUE_FULL`, and `active ++ waitlist` restores the full
membership list in order. -/
theorem split_queue_partition (all_users : List String) :
    (split_queue all_users).1.length ≤ QUEUE_FULL ∧
    ((split_queue all_users).2 ≠ [] →
      (split_queue all_users).1.length = QUEUE_FULL) ∧
    (split_queue all_users).1 ++ (split_queue all_users).2 = all_users := by
  rw [split_queue_eq]
  refine ⟨?_, ?_, ?_⟩
  · simp [List.length_take]
  · intro hw
    have hlen : QUEUE_FULL < all_users.length := by
      by_contra hle
      push_neg at hle
      exact hw (List.drop_eq_nil_of_le hle)
    simp [List.length_take]
    omega
  · exact List.take_append_drop QUEUE_FULL all_users

/-- Witness for C4 at a concrete 7-element membership list. -/
theorem split_queue_partition_witness :
    (split_queue ["a", "b", "c", "d", "e", "f", "g"]).1.length ≤ QUEUE_FULL ∧
    ((split_queue ["a", "b", "c", "d", "e", "f", "g"]).2 ≠ [] →
      (split_queue ["a", "b", "c", "d", "e", "f", "g"]).1.length = QUEUE_FULL) ∧
    (split_queue ["a", "b", "c", "d", "e", "f", "g"]).1 ++
      (split_queue ["a", "b", "c", "d", "e", "f", "g"]).2 =
      ["a", "b", "c", "d", "e", "f", "g"] :=
  split_queue_partition ["a", "b", "c", "d", "e", "f", "g"]

/- ### C10: store errors make is_active_queue answer false -/

/-- C10: when the read of the message binding fails, `is_active_queue`
answers `false`, the same answer as for an absent binding, for every error
and every candidate message id. -/
theorem is_active_queue_error_false (e : String) (message_id : Nat) :
    is_active_queue_of_read (Except.error e) message_id = false ∧
    is_active_queue_of_read (Except.error e) message_id =
      is_active_queue_of_read (Except.ok none) message_id := by
  exact ⟨rfl, rfl⟩

/- ### C9: logical rejections are non-mutating -/

/-- C9: `join_queue` of an identifier already present answers
`AlreadyInQueue` and `leave_queue` of an identifier not present answers
`NotInQueue`; in both cases the entire manager state — membership list,
both bindings and the last-action annotation — is returned unchanged. -/
theorem rejections_non_mutating (m : QueueManager) (u : String) :
    (u ∈ m.store.users →
      join_queue m u = (QueueOperationResult.AlreadyInQueue, m)) ∧
    (u ∉ m.store.users →
      leave_queue m u = (QueueOperationResult.NotInQueue, m)) := by
  constructor
  · intro h
    have hc : m.store.contains_user u = true := (contains_user_iff m.store u).mpr h
    simp [join_queue, hc]
  · intro h
    have hc : ¬(m.store.contains_user u = true) :=
      fun hc => h ((contains_user_iff m.store u).mp hc)
    simp [leave_queue, hc]

/-- Witness for C9 at a concrete one-member queue. -/
theorem rejections_non_mutating_witness :
    join_queue ⟨⟨none, ["u1"], none⟩, none⟩ "u1" =
      (QueueOperationResult.AlreadyInQueue, ⟨⟨none, ["u1"], none⟩, none⟩) ∧
    leave_queue ⟨⟨none, ["u1"], none⟩, none⟩ "u2" =
      (QueueOperationResult.NotInQueue, ⟨⟨none, ["u1"], none⟩, none⟩) :=
  ⟨(rejections_non_mutating ⟨⟨none, ["u1"], none⟩, none⟩ "u1").1 (by decide),
   (rejections_non_mutating ⟨⟨none, ["u1"], none⟩, none⟩ "u2").2 (by decide)⟩

/- ### C5: no duplicate identifiers -/

theorem join_queue_nodup_invariant (m : QueueManager) (u : String)
    (h : m.store.users.Nodup) : ((join_queue m u).2).store.users.Nodup := by
  by_cases hc : m.store.contains_user u = true
  · simp [join_queue, hc, h]
  · have hu : u ∉ m.store.users :=
      fun hu => hc ((contains_user_iff m.store u).mpr hu)
    simp [join_queue, hc, RedisStore.add_user, RedisStore.get_users,
      List.nodup_append, h, hu]

/-- C5: along every sequence of `join_queue` calls from an empty queue the
membership list has no duplicate identifiers, and a `join_queue` for an
identifier already present answers `AlreadyInQueue` and leaves the state
unchanged. -/
theorem join_queue_no_duplicates :
    (∀ ops : List String, (run_joins empty_manager ops).store.users.Nodup) ∧
    (∀ (m : QueueManager) (u : String), u ∈ m.store.users →
      join_queue m u = (QueueOperationResult.AlreadyInQueue, m)) := by
  constructor
  · have key : ∀ (ops : List String) (m : QueueManager),
        m.store.users.Nodup → (run_joins m ops).store.users.Nodup := by
      intro ops
      induction ops with
      | nil => intro m h; exact h
      | cons u us ih =>
          intro m h
          exact ih (join_queue m u).2 (join_queue_nodup_invariant m u h)
    intro ops
    exact key ops empty_manager (by simp [empty_manager])
  · intro m u h
    have hc : m.store.contains_user u = true := (contains_user_iff m.store u).mpr h
    simp [join_queue, hc]

/-- Witness for C5: a repeated join attempt inside a sequence, and a direct
repeated join. -/
theorem join_queue_no_duplicates_witness :
    (run_joins empty_manager ["a", "b", "a"]).store.users.Nodup ∧
    join_queue ⟨⟨none, ["a"], none⟩, none⟩ "a" =
      (QueueOperationResult.AlreadyInQueue, ⟨⟨none, ["a"], none⟩, none⟩) :=
  ⟨join_queue_no_duplicates.1 ["a", "b", "a"],
   join_queue_no_duplicates.2 ⟨⟨none, ["a"], none⟩, none⟩ "a" (by decide)⟩

/- ### C8: leave notification is OneMore at ALMOST_FULL, never Ready -/

/-- C8: for every queue and every member, `leave_queue` answers `Success`
whose notification is `OneMore` exactly when the post-removal main queue
has `QUEUE_ALMOST_FULL` members and is absent otherwise; in particular the
notification of a leave is never `Ready`. -/
theorem leave_queue_notification_spec (m : QueueManager) (u : String)
    (h : u ∈ m.store.users) :
    ∃ users waitlist promoted,
      (leave_queue m u).1 = QueueOperationResult.Success users waitlist
        (if users.length = QUEUE_ALMOST_FULL then
          some QueueNotification.OneMore
        else none) promoted := by
  have hc : m.store.contains_user u = true := (contains_user_iff m.store u).mpr h
  refine ⟨(split_queue ((m.store.remove_user u).get_users)).1,
    (split_queue ((m.store.remove_user u).get_users)).2,
    ((m.store.get_users.findIdx? (fun x => x == u)).bind fun pos =>
      if pos < QUEUE_FULL ∧
          (split_queue ((m.store.remove_user u).get_users)).1.length = QUEUE_FULL ∧
          m.store.get_users.length > QUEUE_FULL then
        (split_queue ((m.store.remove_user u).get_users)).1[QUEUE_FULL - 1]?
      else none), ?_⟩
  simp [leave_queue, hc]

/-- Witness for C8: leaving a five-member queue drops the main queue to
four members and emits `OneMore`. -/
theorem leave_queue_notification_spec_witness :
    ∃ users waitlist promoted,
      (leave_queue ⟨⟨none, ["a", "b", "c", "d", "e"], none⟩, none⟩ "e").1 =
        QueueOperationResult.Success users waitlist
          (if users.length = QUEUE_ALMOST_FULL then
            some QueueNotification.OneMore
          else none) promoted :=
  leave_queue_notification_spec ⟨⟨none, ["a", "b", "c", "d", "e"], none⟩, none⟩
    "e" (by decide)

/- ### C6: close deletes all three records and is idempotent -/

/-- C6: `close_queue` succeeds on every state (including an absent queue,
where it is a no-op), leaves no membership, message-binding or
notification-binding record behind, and a second close also succeeds and
changes nothing further. -/
theorem close_queue_idempotent (m : QueueManager) :
    (close_queue m).1 = Except.ok () ∧
    ((close_queue m).2).store.message_id = none ∧
    ((close_queue m).2).store.users = [] ∧
    ((close_queue m).2).store.notification_id = none ∧
    (close_queue ((close_queue m).2)).1 = Except.ok () ∧
    ((close_queue ((close_queue m).2)).2).store = ((close_queue m).2).store :=
  ⟨rfl, rfl, rfl, rfl, rfl, rfl⟩

/- ### C7: is_active_queue matches the stored binding, stale ids rejected -/

theorem i64_as_u64_inj (x y : Int)
    (hx1 : -(2 ^ 63) ≤ x) (hx2 : x < 2 ^ 63)
    (hy1 : -(2 ^ 63) ≤ y) (hy2 : y < 2 ^ 63)
    (h : i64_as_u64 x = i64_as_u64 y) : x = y := by
  unfold i64_as_u64 at h
  have h64 : ((2 : Int) ^ 64) = 18446744073709551616 := by norm_num
  have h63 : ((2 : Int) ^ 63) = 9223372036854775808 := by norm_num
  rw [h64] at h
  rw [h63] at hx1 hx2 hy1 hy2
  omega

/-- C7: `is_active_queue` answers `true` exactly when a message binding is
stored and its unsigned reading equals the candidate message id; and after
`close_queue` followed by `create_queue` with a different binding, the old
binding value is rejected. -/
theorem is_active_queue_spec (m : QueueManager) (message_id : Nat) :
    (is_active_queue m message_id = true ↔
      ∃ stored, m.store.message_id = some stored ∧
        i64_as_u64 stored = message_id) ∧
    (∀ old_id new_id : Int,
      m.store.message_id = some old_id →
      -(2 ^ 63) ≤ old_id → old_id < 2 ^ 63 →
      -(2 ^ 63) ≤ new_id → new_id < 2 ^ 63 →
      old_id ≠ new_id →
      is_active_queue ((create_queue ((close_queue m).2) new_id).2)
        (i64_as_u64 old_id) = false) := by
  constructor
  · cases hm : m.store.message_id with
    | none =>
        simp [is_active_queue, is_active_queue_of_read, RedisStore.get_message_id, hm]
    | some stored =>
        simp [is_active_queue, is_active_queue_of_read, RedisStore.get_message_id, hm]
  · intro old_id new_id hold ho1 ho2 hn1 hn2 hne
    have hred : is_active_queue ((create_queue ((close_queue m).2) new_id).2)
        (i64_as_u64 old_id) = (i64_as_u64 new_id == i64_as_u64 old_id) := rfl
    rw [hred, beq_eq_false_iff_ne]
    intro heq
    exact hne (i64_as_u64_inj old_id new_id ho1 ho2 hn1 hn2 heq.symm)

/-- Witness for C7: the stored binding 7 is accepted, and after a close
followed by a create with binding 9 the old value 7 is rejected. -/
theorem is_active_queue_spec_witness :
    is_active_queue ⟨⟨some 7, [], none⟩, none⟩ 7 = true ∧
    is_active_queue
      ((create_queue ((close_queue ⟨⟨some 7, [], none⟩, none⟩).2) 9).2)
      (i64_as_u64 7) = false :=
  ⟨((is_active_queue_spec ⟨⟨some 7, [], none⟩, none⟩ 7).1).mpr
      ⟨7, rfl, by decide⟩,
   (is_active_queue_spec ⟨⟨some 7, [], none⟩, none⟩ 0).2 7 9 rfl
     (by norm_num) (by norm_num) (by norm_num) (by norm_num) (by norm_num)⟩

/- ### C1: join notification thresholds -/

/-- C1 counterexample: joining a 6th distinct user onto a full five-member
queue answers `Success` whose notification is `Ready` with the five active
users — not the absent notification the claim requires. -/
theorem join_queue_sixth_user_fires_ready :
    (join_queue ⟨⟨some 1, ["u1", "u2", "u3", "u4", "u5"], none⟩, none⟩
        "u6").1 =
      QueueOperationResult.Success ["u1", "u2", "u3", "u4", "u5"] ["u6"]
        (some (QueueNotification.Ready ["u1", "u2", "u3", "u4", "u5"]))
        none := by
  decide

/-- C1 (amended): for a user not yet a member, `join_queue` answers
`Success` whose notification is `OneMore` exactly when the resulting
total membership (= active-set size then) is `QUEUE_ALMOST_FULL`, is
`Ready` with the active set exactly when the resulting total membership
reaches `QUEUE_FULL` or more (equivalently the resulting active-set size
is `QUEUE_FULL`, so also on every join onto an already-full queue), and
is absent otherwise; the active-set size is the total membership capped at
`QUEUE_FULL`, and a user joining a five-member queue lands at waitlist
position 0. -/
theorem join_queue_notification_thresholds (m : QueueManager) (u : String)
    (h : u ∉ m.store.users) :
    ∃ users waitlist,
      (join_queue m u).1 = QueueOperationResult.Success users waitlist
        (if m.store.users.length + 1 = QUEUE_ALMOST_FULL then
          some QueueNotification.OneMore
        else if QUEUE_FULL ≤ m.store.users.length + 1 then
          some (QueueNotification.Ready users)
        else none) none ∧
      users.length = min (m.store.users.length + 1) QUEUE_FULL ∧
      (m.store.users.length = QUEUE_FULL → waitlist = [u]) := by
  have hc : m.store.contains_user u = false :=
    Bool.eq_false_iff.mpr (fun hb => h ((contains_user_iff m.store u).mp hb))
  refine ⟨(m.store.users ++ [u]).take QUEUE_FULL,
    (m.store.users ++ [u]).drop QUEUE_FULL, ?_, ?_, ?_⟩
  · have hlen : ((m.store.users ++ [u]).take QUEUE_FULL).length
        = min QUEUE_FULL (m.store.users.length + 1) := by
      simp [List.length_take]
    simp only [join_queue, hc, Bool.false_eq_true, if_false,
      RedisStore.add_user, RedisStore.get_users, split_queue_eq]
    rw [hlen]
    simp only [show QUEUE_ALMOST_FULL = 4 from rfl, show QUEUE_FULL = 5 from rfl]
    split_ifs <;> first | rfl | omega
  · simp [List.length_take]
    omega
  · intro hfull
    rw [← hfull]
    exact List.drop_left m.store.users [u]

/-- Witness for C1 (amended): joining a 6th user onto a concrete full
queue. -/
theorem join_queue_notification_thresholds_witness :
    ∃ users waitlist,
      (join_queue ⟨⟨some 1, ["u1", "u2", "u3", "u4", "u5"], none⟩, none⟩
          "u6").1 =
        QueueOperationResult.Success users waitlist
          (if (5 : Nat) + 1 = QUEUE_ALMOST_FULL then
            some QueueNotification.OneMore
          else if QUEUE_FULL ≤ (5 : Nat) + 1 then
            some (QueueNotification.Ready users)
          else none) none ∧
      users.length = min ((5 : Nat) + 1) QUEUE_FULL ∧
      ((5 : Nat) = QUEUE_FULL → waitlist = ["u6"]) :=
  join_queue_notification_thresholds
    ⟨⟨some 1, ["u1", "u2", "u3", "u4", "u5"], none⟩, none⟩ "u6" (by decide)

/- ### C3: waitlist promotion on leave -/

/-- C3: for every queue whose membership list holds exactly six distinct
members (five active, one waitlisted), `leave_queue` of any of the first
five members answers `Success` with the sixth member as the promoted user,
and `leave_queue` of the waitlisted sixth member answers `Success` with no
promoted user. -/
theorem leave_queue_promotion (st : RedisStore) (la : Option String)
    (a b c d e f : String)
    (husers : st.users = [a, b, c, d, e, f])
    (hnd : [a, b, c, d, e, f].Nodup) :
    (∀ u, u ∈ [a, b, c, d, e] →
      ∃ users waitlist notif,
        (leave_queue ⟨st, la⟩ u).1 =
          QueueOperationResult.Success users waitlist notif (some f)) ∧
    (∃ users waitlist notif,
      (leave_queue ⟨st, la⟩ f).1 =
        QueueOperationResult.Success users waitlist notif none) := by
  simp only [List.nodup_cons, List.mem_cons, List.mem_singleton,
    List.not_mem_nil, or_false, not_or, List.nodup_nil, and_true] at hnd
  obtain ⟨⟨hab, hac, had, hae, haf⟩, ⟨hbc, hbd, hbe, hbf⟩,
    ⟨hcd, hce, hcf⟩, ⟨hde, hdf⟩, hef, -⟩ := hnd
  have nab : (a == b) = false := beq_eq_false_iff_ne.mpr hab
  have nba : (b == a) = false := beq_eq_false_iff_ne.mpr (Ne.symm hab)
  have nac : (a == c) = false := beq_eq_false_iff_ne.mpr hac
  have nca : (c == a) = false := beq_eq_false_iff_ne.mpr (Ne.symm hac)
  have nad : (a == d) = false := beq_eq_false_iff_ne.mpr had
  have nda : (d == a) = false := beq_eq_false_iff_ne.mpr (Ne.symm had)
  have nae : (a == e) = false := beq_eq_false_iff_ne.mpr hae
  have nea : (e == a) = false := beq_eq_false_iff_ne.mpr (Ne.symm hae)
  have naf : (a == f) = false := beq_eq_false_iff_ne.mpr haf
  have nfa : (f == a) = false := beq_eq_false_iff_ne.mpr (Ne.symm haf)
  have nbc : (b == c) = false := beq_eq_false_iff_ne.mpr hbc
  have ncb : (c == b) = false := beq_eq_false_iff_ne.mpr (Ne.symm hbc)
  have nbd : (b == d) = false := beq_eq_false_iff_ne.mpr hbd
  have ndb : (d == b) = false := beq_eq_false_iff_ne.mpr (Ne.symm hbd)
  have nbe : (b == e) = false := beq_eq_false_iff_ne.mpr hbe
  have neb : (e == b) = false := beq_eq_false_iff_ne.mpr (Ne.symm hbe)
  have nbf : (b == f) = false := beq_eq_false_iff_ne.mpr hbf
  have nfb : (f == b) = false := beq_eq_false_iff_ne.mpr (Ne.symm hbf)
  have ncd : (c == d) = false := beq_eq_false_iff_ne.mpr hcd
  have ndc : (d == c) = false := beq_eq_false_iff_ne.mpr (Ne.symm hcd)
  have nce : (c == e) = false := beq_eq_false_iff_ne.mpr hce
  have nec : (e == c) = false := beq_eq_false_iff_ne.mpr (Ne.symm hce)
  have ncf : (c == f) = false := beq_eq_false_iff_ne.mpr hcf
  have nfc : (f == c) = false := beq_eq_false_iff_ne.mpr (Ne.symm hcf)
  have nde : (d == e) = false := beq_eq_false_iff_ne.mpr hde
  have ned : (e == d) = false := beq_eq_false_iff_ne.mpr (Ne.symm hde)
  have ndf : (d == f) = false := beq_eq_false_iff_ne.mpr hdf
  have nfd : (f == d) = false := beq_eq_false_iff_ne.mpr (Ne.symm hdf)
  have nef : (e == f) = false := beq_eq_false_iff_ne.mpr hef
  have nfe : (f == e) = false := beq_eq_false_iff_ne.mpr (Ne.symm hef)
  constructor
  · intro u hu
    fin_cases hu
    · refine ⟨[b, c, d, e, f], [], none, ?_⟩
      simp [leave_queue, RedisStore.contains_user, RedisStore.get_users,
        RedisStore.remove_user, husers, split_queue, List.filter_cons,
        QUEUE_FULL, QUEUE_ALMOST_FULL,
        nba, nca, nda, nea, nfa,
        Ne.symm hab, Ne.symm hac, Ne.symm had, Ne.symm hae, Ne.symm haf]
    · refine ⟨[a, c, d, e, f], [], none, ?_⟩
      simp [leave_queue, RedisStore.contains_user, RedisStore.get_users,
        RedisStore.remove_user, husers, split_queue, List.filter_cons,
        QUEUE_FULL, QUEUE_ALMOST_FULL,
        nab, ncb, ndb, neb, nfb,
        hab, Ne.symm hbc, Ne.symm hbd, Ne.symm hbe, Ne.symm hbf]
    · refine ⟨[a, b, d, e, f], [], none, ?_⟩
      simp [leave_queue, RedisStore.contains_user, RedisStore.get_users,
        RedisStore.remove_user, husers, split_queue, List.filter_cons,
        QUEUE_FULL, QUEUE_ALMOST_FULL,
        nac, nbc, ndc, nec, nfc,
        hac, hbc, Ne.symm hcd, Ne.symm hce, Ne.symm hcf]
    · refine ⟨[a, b, c, e, f], [], none, ?_⟩
      simp [leave_queue, RedisStore.contains_user, RedisStore.get_users,
        RedisStore.remove_user, husers, split_queue, List.filter_cons,
        QUEUE_FULL, QUEUE_ALMOST_FULL,
        nad, nbd, ncd, ned, nfd,
        had, hbd, hcd, Ne.symm hde, Ne.symm hdf]
    · refine ⟨[a, b, c, d, f], [], none, ?_⟩
      simp [leave_queue, RedisStore.contains_user, RedisStore.get_users,
        RedisStore.remove_user, husers, split_queue, List.filter_cons,
        QUEUE_FULL, QUEUE_ALMOST_FULL,
        nae, nbe, nce, nde, nfe,
        hae, hbe, hce, hde, Ne.symm hef]
  · refine ⟨[a, b, c, d, e], [], none, ?_⟩
    simp [leave_queue, RedisStore.contains_user, RedisStore.get_users,
      RedisStore.remove_user, husers, split_queue, List.filter_cons,
      QUEUE_FULL, QUEUE_ALMOST_FULL,
      naf, nbf, ncf, ndf, nef,
      haf, hbf, hcf, hdf, hef]

/-- Witness for C3 at a concrete six-member queue: leaving the third
member promotes the sixth, leaving the sixth promotes nobody. -/
theorem leave_queue_promotion_witness :
    (∃ users waitlist notif,
      (leave_queue ⟨⟨none, ["a", "b", "c", "d", "e", "f"], none⟩, none⟩
          "c").1 =
        QueueOperationResult.Success users waitlist notif (some "f")) ∧
    (∃ users waitlist notif,
      (leave_queue ⟨⟨none, ["a", "b", "c", "d", "e", "f"], none⟩, none⟩
          "f").1 =
        QueueOperationResult.Success users waitlist notif none) :=
  ⟨(leave_queue_promotion ⟨none, ["a", "b", "c", "d", "e", "f"], none⟩ none
      "a" "b" "c" "d" "e" "f" rfl (by decide)).1 "c" (by decide),
   (leave_queue_promotion ⟨none, ["a", "b", "c", "d", "e", "f"], none⟩ none
      "a" "b" "c" "d" "e" "f" rfl (by decide)).2⟩

/- ### C2: key derivation -/

theorem dot_free_iff (s : String) :
    dot_free s = true ↔ ('.' : Char) ∉ s.data := by
  simp [dot_free, List.contains_iff_exists_mem_beq]

theorem append_dot_cons_inj (l1 : List Char) :
    ∀ (l2 m1 m2 : List Char), ('.' : Char) ∉ l1 → ('.' : Char) ∉ l2 →
      (l1 ++ '.' :: m1 = l2 ++ '.' :: m2 ↔ l1 = l2 ∧ m1 = m2) := by
  induction l1 with
  | nil =>
    intro l2 m1 m2 h1 h2
    cases l2 with
    | nil => simp
    | cons y ys =>
      apply iff_of_false
      · intro h
        injection h with hy _
        subst hy
        exact h2 (List.mem_cons_self _ _)
      · rintro ⟨h, -⟩
        exact List.noConfusion h
  | cons x xs ih =>
    intro l2 m1 m2 h1 h2
    cases l2 with
    | nil =>
      apply iff_of_false
      · intro h
        injection h with hx _
        subst hx
        exact h1 (List.mem_cons_self _ _)
      · rintro ⟨h, -⟩
        exact List.noConfusion h
    | cons y ys =>
      simp only [List.cons_append, List.cons.injEq]
      rw [ih ys m1 m2 (fun hm => h1 (List.mem_cons_of_mem x hm))
        (fun hm => h2 (List.mem_cons_of_mem y hm))]
      exact and_assoc.symm

theorem message_key_data (g c : String) :
    (message_key g c).data = g.data ++ '.' :: c.data := by
  simp [message_key, String.data_append]

theorem queue_key_data (g c : String) :
    (queue_key g c).data =
      g.data ++ '.' :: (c.data ++ '.' :: ['q', 'u', 'e', 'u', 'e']) := by
  simp [queue_key, String.data_append]

theorem notification_key_data (g c : String) :
    (notification_key g c).data =
      g.data ++ '.' :: (c.data ++ '.' ::
        ['n', 'o', 't', 'i', 'f', 'i', 'c', 'a', 't', 'i', 'o', 'n']) := by
  simp [notification_key, String.data_append]

theorem count_dot_of_dot_free (s : String) (h : dot_free s = true) :
    s.data.count '.' = 0 :=
  List.count_eq_zero.mpr ((dot_free_iff s).mp h)

theorem message_key_count (g c : String)
    (hg : dot_free g = true) (hc : dot_free c = true) :
    (message_key g c).data.count '.' = 1 := by
  rw [message_key_data]
  simp [List.count_append, List.count_cons,
    count_dot_of_dot_free g hg, count_dot_of_dot_free c hc]

theorem queue_key_count (g c : String)
    (hg : dot_free g = true) (hc : dot_free c = true) :
    (queue_key g c).data.count '.' = 2 := by
  rw [queue_key_data]
  simp [List.count_append, List.count_cons,
    count_dot_of_dot_free g hg, count_dot_of_dot_free c hc]

theorem notification_key_count (g c : String)
    (hg : dot_free g = true) (hc : dot_free c = true) :
    (notification_key g c).data.count '.' = 2 := by
  rw [notification_key_data]
  simp [List.count_append, List.count_cons,
    count_dot_of_dot_free g hg, count_dot_of_dot_free c hc]

theorem queue_key_getLast (g c : String) :
    (queue_key g c).data.getLast? = some 'e' := by
  rw [queue_key_data]
  rw [List.getLast?_append_of_ne_nil _ (by simp)]
  rw [show ('.' :: (c.data ++ '.' :: ['q', 'u', 'e', 'u', 'e'])) =
      ('.' :: c.data) ++ ('.' :: ['q', 'u', 'e', 'u', 'e']) by simp]
  rw [List.getLast?_append_of_ne_nil _ (by simp)]
  decide

theorem notification_key_getLast (g c : String) :
    (notification_key g c).data.getLast? = some 'n' := by
  rw [notification_key_data]
  rw [List.getLast?_append_of_ne_nil _ (by simp)]
  rw [show ('.' :: (c.data ++ '.' ::
        ['n', 'o', 't', 'i', 'f', 'i', 'c', 'a', 't', 'i', 'o', 'n'])) =
      ('.' :: c.data) ++ ('.' ::
        ['n', 'o', 't', 'i', 'f', 'i', 'c', 'a', 't', 'i', 'o', 'n']) by simp]
  rw [List.getLast?_append_of_ne_nil _ (by simp)]
  decide

/-- C2 counterexample: over arbitrary string identifiers the separator can
occur inside an identifier, and two distinct (group, channel) pairs then
derive the same message key, so the key derivation is not injective as
claimed. -/
theorem message_key_collision :
    message_key "a" "b.c" = message_key "a.b" "c" ∧
    ¬(("a" : String) = "a.b" ∧ ("b.c" : String) = "c") := by
  decide

/-- C2 (amended): for identifiers that do not contain the `.` separator,
the three key-derivation functions are (deterministic functions and)
injective across (group, channel) pairs, and the keys of the three record
kinds are pairwise distinct across any such pairs. -/
theorem store_keys_injective (g1 c1 g2 c2 : String)
    (hg1 : dot_free g1 = true) (hc1 : dot_free c1 = true)
    (hg2 : dot_free g2 = true) (hc2 : dot_free c2 = true) :
    (message_key g1 c1 = message_key g2 c2 ↔ g1 = g2 ∧ c1 = c2) ∧
    (queue_key g1 c1 = queue_key g2 c2 ↔ g1 = g2 ∧ c1 = c2) ∧
    (notification_key g1 c1 = notification_key g2 c2 ↔ g1 = g2 ∧ c1 = c2) ∧
    message_key g1 c1 ≠ queue_key g2 c2 ∧
    message_key g1 c1 ≠ notification_key g2 c2 ∧
    queue_key g1 c1 ≠ notification_key g2 c2 := by
  have hdg1 := (dot_free_iff g1).mp hg1
  have hdc1 := (dot_free_iff c1).mp hc1
  have hdg2 := (dot_free_iff g2).mp hg2
  have hdc2 := (dot_free_iff c2).mp hc2
  refine ⟨?_, ?_, ?_, ?_, ?_, ?_⟩
  · rw [String.ext_iff, message_key_data, message_key_data,
      append_dot_cons_inj g1.data g2.data c1.data c2.data hdg1 hdg2,
      ← String.ext_iff, ← String.ext_iff]
  · rw [String.ext_iff, queue_key_data, queue_key_data,
      append_dot_cons_inj g1.data g2.data _ _ hdg1 hdg2]
    rw [append_dot_cons_inj c1.data c2.data _ _ hdc1 hdc2]
    rw [← String.ext_iff, ← String.ext_iff]
    simp
  · rw [String.ext_iff, notification_key_data, notification_key_data,
      append_dot_cons_inj g1.data g2.data _ _ hdg1 hdg2]
    rw [append_dot_cons_inj c1.data c2.data _ _ hdc1 hdc2]
    rw [← String.ext_iff, ← String.ext_iff]
    simp
  · intro h
    have hcount := congrArg (fun s => s.data.count '.') h
    simp only [message_key_count g1 c1 hg1 hc1,
      queue_key_count g2 c2 hg2 hc2] at hcount
    omega
  · intro h
    have hcount := congrArg (fun s => s.data.count '.') h
    simp only [message_key_count g1 c1 hg1 hc1,
      notification_key_count g2 c2 hg2 hc2] at hcount
    omega
  · intro h
    have hlast := congrArg (fun s => s.data.getLast?) h
    simp only [queue_key_getLast g1 c1,
      notification_key_getLast g2 c2] at hlast
    injection hlast with hch
    exact absurd hch (by decide)

/-- Witness for C2 (amended) at concrete dot-free identifiers. -/
theorem store_keys_injective_witness :
    (message_key "1" "2" = message_key "3" "4" ↔
      ("1" : String) = "3" ∧ ("2" : String) = "4") ∧
    (queue_key "1" "2" = queue_key "3" "4" ↔
      ("1" : String) = "3" ∧ ("2" : String) = "4") ∧
    (notification_key "1" "2" = notification_key "3" "4" ↔
      ("1" : String) = "3" ∧ ("2" : String) = "4") ∧
    message_key "1" "2" ≠ queue_key "3" "4" ∧
    message_key "1" "2" ≠ notification_key "3" "4" ∧
    queue_key "1" "2" ≠ notification_key "3" "4" :=
  store_keys_injective "1" "2" "3" "4"
    (by decide) (by decide) (by decide) (by decide)

end StandbyBot
